import Mathlib

/-!
Shallow embedding of the crosscat metamodel adapter (src/crosscat.py) and
proofs about the claims of the specification.  Python values are modelled by
an inductive type, Python floats by rationals plus an explicit NaN sentinel,
and fallible Python code by `Except`.
-/

/-- Python float: a rational value or the NaN sentinel (no rounding is
performed anywhere in the modelled code, so rationals are exact). -/
inductive PFloat where
  | nan
  | val (q : ℚ)
deriving DecidableEq, Repr

/-- A Python value as stored in an SQLite cell or passed through the codec:
None, a string, a float, or an integer. -/
inductive PyVal where
  | none
  | str (s : String)
  | num (x : PFloat)
  | int (n : ℤ)
deriving DecidableEq, Repr

/-- The Python exceptions raised by the modelled code. -/
inductive Err where
  | keyError
  | valueError (msg : String)
  | typeError
  | nameError
  | indexError
  | zeroDivisionError
deriving DecidableEq, Repr

/-- Equality of Except results is decidable when both components are. -/
instance exceptDecidableEq {ε α : Type} [DecidableEq ε] [DecidableEq α] :
    DecidableEq (Except ε α) := fun a b =>
  match a, b with
  | .error e, .error f => decidable_of_iff (e = f) (by simp)
  | .ok x, .ok y => decidable_of_iff (x = y) (by simp)
  | .error _, .ok _ => isFalse (by simp)
  | .ok _, .error _ => isFalse (by simp)

/-- Rendering of a Python float by unicode(...); only used as a dictionary
key for categorical code maps, whose values are strings or integers in
practice. -/
def pFloatStr : PFloat → String
  | .nan => "nan"
  | .val q => toString q

/-- unicode(value): the string rendering Python uses as the JSON key of a
code-map entry. -/
def pyUnicode : PyVal → String
  | .none => "None"
  | .str s => s
  | .num x => pFloatStr x
  | .int n => toString n

def allDigits (cs : List Char) : Bool :=
  cs.all Char.isDigit

def natOfDigits (cs : List Char) : ℕ :=
  cs.foldl (fun a c => 10 * a + (c.toNat - 48)) 0

/-- Parse an unsigned decimal literal (digits, optionally with a fractional
part) the way Python float() does on such input. -/
def parsePositive? (cs : List Char) : Option ℚ :=
  let ip := cs.takeWhile (fun c => c ≠ '.')
  match cs.drop ip.length with
  | [] => if allDigits ip && !ip.isEmpty then some (natOfDigits ip) else Option.none
  | '.' :: fp =>
      if allDigits ip && allDigits fp && (!ip.isEmpty || !fp.isEmpty) then
        some ((natOfDigits ip : ℚ) + (natOfDigits fp : ℚ) / ((10 : ℚ) ^ fp.length))
      else Option.none
  | _ => Option.none

/-- Python float(s) on a string: model of the float constructor for plain
decimal literals and the nan spelling (exponents, whitespace and infinities
are outside the inputs exercised by the modelled code paths). -/
def parsePyFloat? (s : String) : Option PFloat :=
  match s.toList with
  | '-' :: rest => (parsePositive? rest).map (fun q => .val (-q))
  | '+' :: rest => (parsePositive? rest).map .val
  | _ =>
      if s = "nan" || s = "NaN" then some .nan
      else (parsePositive? s.toList).map .val

/-- The numerical/cyclic branch of crosscat_value_to_code: try float(value)
and collapse every ValueError/TypeError to the NaN missing sentinel. -/
def pyFloatForce : PyVal → PFloat
  | .none => .nan
  | .str s => (parsePyFloat? s).getD .nan
  | .num x => x
  | .int n => .val n

/-- Python int() applied to a rational-valued float: truncation toward
zero. -/
def ratTrunc (q : ℚ) : ℤ :=
  if 0 ≤ q.num then q.num / (q.den : ℤ) else -((-q.num) / (q.den : ℤ))

/-- Python math.ceil on an exact rational. -/
def ratCeilZ (q : ℚ) : ℤ :=
  -((-q.num).ediv (q.den : ℤ))

/-- Python division: raises ZeroDivisionError on a zero divisor. -/
def pyDiv (a b : ℚ) : Except Err ℚ :=
  if b = 0 then .error .zeroDivisionError else .ok (a / b)

/-- Python list subscript: IndexError out of range. -/
def pyListGet {α : Type} (l : List α) (i : ℕ) : Except Err α :=
  match l.get? i with
  | some x => .ok x
  | Option.none => .error .indexError

/-- One entry of M_c['column_metadata'] after the JSON round trip.  The
codes list holds the distinct non-null values found at creation time in
ascending order; the (badly named, per the source comments) value_to_code
JSON object maps the key unicode(i) to codes[i], and the code_to_value JSON
object maps the key unicode(codes[i]) to i. -/
structure ColMeta where
  modeltype : String
  codes : List PyVal
deriving DecidableEq, Repr

/-- Lookup of a rendered value among the JSON keys of the code_to_value
object.  json.dumps keeps the last entry when two keys render identically,
so the search prefers the later index. -/
def codeOfValueAux (keys : List String) (k : String) : Option ℕ :=
  match keys with
  | [] => Option.none
  | k0 :: rest =>
      match codeOfValueAux rest k with
      | some i => some (i + 1)
      | Option.none => if k0 = k then some 0 else Option.none

/-- Lookup by the JSON key unicode(int(code)) in the value_to_code object,
whose keys are unicode(0) .. unicode(ncodes-1): it hits index i exactly when
int(code) = i. -/
def valueOfCode (m : ColMeta) (c : ℤ) : Option PyVal :=
  if 0 ≤ c then m.codes.get? c.toNat else Option.none

/-- One row of the bayesdb_crosscat_column table for a generator. -/
structure CCColumn where
  colno : ℤ
  cc_colno : ℕ
  disttype : String
deriving DecidableEq, Repr

/-- crosscat_cc_colno: SELECT cc_colno FROM bayesdb_crosscat_column WHERE
generator_id = ? AND colno = ?; no row raises ValueError. -/
def crosscat_cc_colno (cols : List CCColumn) (colno : ℤ) : Except Err ℕ :=
  match cols.find? (fun c => c.colno == colno) with
  | some c => .ok c.cc_colno
  | Option.none => .error (.valueError "Column not modelled in generator")

/-- The generator-level context a query reads: the per-column stattype (from
bayesdb_generator_column), the bayesdb_crosscat_column rows, and the parsed
M_c column metadata list. -/
structure GenCtx where
  stattypeOf : ℤ → String
  cc_columns : List CCColumn
  metas : List ColMeta

/-- crosscat_value_to_code: categorical values go through the (swapped-name)
code_to_value JSON map keyed by unicode(value), None encodes to NaN, an
unknown value raises KeyError; cyclic/numerical values go through float()
with failures collapsed to NaN; any other stattype raises KeyError. -/
def crosscat_value_to_code (g : GenCtx) (colno : ℤ) (value : PyVal) :
    Except Err PFloat :=
  let stattype := g.stattypeOf colno
  if stattype = "categorical" then
    match value with
    | .none => .ok .nan
    | v => do
        let cc ← crosscat_cc_colno g.cc_columns colno
        let m ← pyListGet g.metas cc
        match codeOfValueAux (m.codes.map pyUnicode) (pyUnicode v) with
        | some c => .ok (.val c)
        | Option.none => .error .keyError
  else if stattype = "cyclic" || stattype = "numerical" then
    .ok (pyFloatForce value)
  else
    .error .keyError

/-- crosscat_code_to_value: NaN decodes to None; a categorical code is
truncated by int() and looked up by unicode(int(code)) in the value_to_code
JSON map; cyclic/numerical codes are returned unchanged; any other stattype
raises KeyError. -/
def crosscat_code_to_value (g : GenCtx) (colno : ℤ) (code : PFloat) :
    Except Err PyVal :=
  let stattype := g.stattypeOf colno
  if stattype = "categorical" then
    match code with
    | .nan => .ok .none
    | .val q => do
        let cc ← crosscat_cc_colno g.cc_columns colno
        let m ← pyListGet g.metas cc
        match valueOfCode m (ratTrunc q) with
        | some v => .ok v
        | Option.none => .error .keyError
  else if stattype = "cyclic" || stattype = "numerical" then
    match code with
    | .nan => .ok .none
    | .val q => .ok (.num (.val q))
  else
    .error .keyError

/-- One model's latent state as read back from a theta JSON blob:
X_L['column_partition']['assignments'] (structural block per cc column) and
X_D (row-cluster assignment list per structural block). -/
structure Theta where
  assignments : List ℕ
  X_D : List (List ℕ)
deriving DecidableEq, Repr

/-- The body of column_dependence_probability's per-model test expressed as
the claim states it: both compacted indices lie in the same structural
block, and that block's row-cluster assignment holds more than one distinct
cluster. -/
def depMatch (cc0 cc1 : ℕ) (m : Theta) : Bool :=
  decide (m.assignments.getD cc0 0 = m.assignments.getD cc1 0) &&
  decide (1 < (m.X_D.getD (m.assignments.getD cc0 0) []).dedup.length)

/-- The counting loop of column_dependence_probability: nmodels += 1 for
every stored model; the per-model lookups assignments[cc0], assignments[cc1]
and X_D[assignments[cc0]] are Python list subscripts; len(unique(...)) is
the number of distinct row clusters (bayeslite.util.unique on the cluster
assignment). -/
def depModelCounts (cc0 cc1 : ℕ) : List Theta → Except Err (ℕ × ℕ)
  | [] => .ok (0, 0)
  | m :: rest => do
      let a0 ← pyListGet m.assignments cc0
      let a1 ← pyListGet m.assignments cc1
      let inc ←
        if a0 ≠ a1 then pure 0
        else do
          let xd ← pyListGet m.X_D a0
          pure (if xd.dedup.length ≤ 1 then 0 else 1)
      let cn ← depModelCounts cc0 cc1 rest
      pure (cn.1 + inc, cn.2 + 1)

/-- column_dependence_probability: 1 when the column numbers coincide (before
any lookup); otherwise both cc indices are resolved, every stored model is
scanned, and the result is count/nmodels, or NaN with zero models. -/
def column_dependence_probability (g : GenCtx) (models : List Theta)
    (colno0 colno1 : ℤ) : Except Err PFloat :=
  if colno0 = colno1 then .ok (.val 1)
  else do
    let cc0 ← crosscat_cc_colno g.cc_columns colno0
    let cc1 ← crosscat_cc_colno g.cc_columns colno1
    let cn ← depModelCounts cc0 cc1 models
    if cn.2 = 0 then .ok .nan
    else .ok (.val ((cn.1 : ℚ) / (cn.2 : ℚ)))

/-- column_value_probability: codify the value, returning probability 0 on a
KeyError; otherwise fabricate the unobserved row id len(X_D_list[0][0]),
resolve the cc column index, and return math.exp of the engine's
simple_predictive_probability_multistate result.  The engine capability and
math.exp are external and passed as functions. -/
def column_value_probability (g : GenCtx) (models : List Theta)
    (expf : ℚ → ℚ) (engine : ℕ → ℕ → PFloat → ℚ) (colno : ℤ)
    (value : PyVal) : Except Err ℚ :=
  match crosscat_value_to_code g colno value with
  | .error .keyError => .ok 0
  | .error e => .error e
  | .ok code => do
      let xd0 ← pyListGet (models.map Theta.X_D) 0
      let v0 ← pyListGet xd0 0
      let fake_row_id := v0.length
      let cc ← crosscat_cc_colno g.cc_columns colno
      .ok (expf (engine fake_row_id cc code))

/-- Modelled from the spec: bayeslite.util.arithmetic_mean (not under src/)
is the arithmetic mean of the per-model estimates; Python mean of an empty
list divides by zero. -/
def arithmetic_mean (l : List ℚ) : Except Err ℚ :=
  pyDiv (l.foldl (· + ·) 0) (l.length : ℚ)

/-- column_mutual_information: numsamples defaults to 100, n_samples =
int(math.ceil(float(numsamples) / len(X_L_list))) divides by the number of
stored models with no guard, the engine's estimator returns one estimate
per model and the arithmetic mean is taken. -/
def column_mutual_information (engineMI : ℤ → List ℚ) (models : List Theta)
    (numsamples : Option ℤ) : Except Err ℚ := do
  let ns := numsamples.getD 100
  let q ← pyDiv (ns : ℚ) (models.length : ℚ)
  let mi := engineMI (ratCeilZ q)
  arithmetic_mean mi

/-- One entry of the column_list handed to create_generator:
(colno, name, stattype). -/
structure SchemaColumn where
  colno : ℤ
  name : String
  stattype : String
deriving DecidableEq, Repr

/-- Modelled from the spec: bayeslite.util.casefold (not under src/), the
case-insensitive normalisation used to dispatch on a stattype name. -/
def casefold (s : String) : String :=
  ⟨s.data.map Char.toLower⟩

/-- create_metadata_numerical: empty maps, normal_inverse_gamma model. -/
def create_metadata_numerical : Except Err ColMeta :=
  .ok ⟨"normal_inverse_gamma", []⟩

/-- create_metadata_cyclic: empty maps, vonmises model. -/
def create_metadata_cyclic : Except Err ColMeta :=
  .ok ⟨"vonmises", []⟩

/-- create_metadata_categorical: scan the table's distinct non-null values
for the column in ascending order (the distinct function stands for the
SELECT DISTINCT ... ORDER BY query) and build the two code maps. -/
def create_metadata_categorical (distinct : ℤ → List PyVal) (colno : ℤ) :
    Except Err ColMeta :=
  .ok ⟨"symmetric_dirichlet_discrete", distinct colno⟩

/-- create_metadata_ignore: categorical-style metadata with the modeltype
overwritten. -/
def create_metadata_ignore (distinct : ℤ → List PyVal) (colno : ℤ) :
    Except Err ColMeta :=
  (create_metadata_categorical distinct colno).map
    (fun m => { m with modeltype := "ignore" })

/-- create_metadata_key: the body calls
create_metadata_categorical(bdb, generator_id, colno), but the function's
second parameter is named table, so the name generator_id is unbound and the
call raises NameError before anything else happens. -/
def create_metadata_key (_distinct : ℤ → List PyVal) (_colno : ℤ) :
    Except Err ColMeta :=
  .error .nameError

/-- metadata_creators[casefold(stattype)](bdb, generator_id, colno): the
dispatch table of create_metadata; an unknown stattype raises KeyError at
the dictionary lookup. -/
def metadata_creators (distinct : ℤ → List PyVal) (stattype : String)
    (colno : ℤ) : Except Err ColMeta :=
  match stattype with
  | "categorical" => create_metadata_categorical distinct colno
  | "cyclic" => create_metadata_cyclic
  | "ignore" => create_metadata_ignore distinct colno
  | "key" => create_metadata_key distinct colno
  | "numerical" => create_metadata_numerical
  | _ => .error .keyError

/-- create_metadata: the column_metadata list comprehension, evaluated left
to right, the first failing column aborting the whole call. -/
def create_metadata (distinct : ℤ → List PyVal)
    (column_list : List SchemaColumn) : Except Err (List ColMeta) :=
  column_list.mapM (fun c => metadata_creators distinct (casefold c.stattype) c.colno)

/-- The relational projection create_generator inserts into
bayesdb_crosscat_column: for cc_colno, (colno, name, _stattype) in
enumerate(column_list), one row (colno, cc_colno, disttype) with disttype =
column_metadata[cc_colno]['modeltype'].  The cc_colno is the position of
the column in column_list. -/
def create_generator_columns (distinct : ℤ → List PyVal)
    (column_list : List SchemaColumn) : Except Err (List (ℤ × ℕ × String)) := do
  let metadata ← create_metadata distinct column_list
  .ok ((column_list.zip metadata).enum.map
    (fun p => (p.2.1.colno, p.1, p.2.2.modeltype)))

/-- The cc_colno values of the stored rows whose disttype is a modelled one
(the claim's reading: ignore and key columns are not modelled). -/
def modelledCcList (rows : List (ℤ × ℕ × String)) : List ℕ :=
  (rows.filter (fun r => r.2.2 ≠ "ignore" && r.2.2 ≠ "key")).map (fun r => r.2.1)

/-- One row of bayesdb_generator_model: the per-model iteration counter that
analyze is supposed to increment. -/
structure GenModelRow where
  generator_id : ℤ
  modelno : ℤ
  iterations : ℤ
deriving DecidableEq, Repr

/-- UPDATE bayesdb_generator_model SET iterations = iterations + ?1 WHERE
generator_id = ?2 AND modelno = ?3, with the three positional SQL
parameters p1, p2, p3. -/
def execUpdateIterationsSql (p1 p2 p3 : ℤ) (db : List GenModelRow) :
    List GenModelRow :=
  db.map (fun r =>
    if r.generator_id = p2 ∧ r.modelno = p3 then
      { r with iterations := r.iterations + p1 }
    else r)

/-- The analyze checkpoint executes update_iterations_sql with
parameters = (generator_id, modelno, n_steps), in that order. -/
def analyze_update_iterations (generator_id modelno n_steps : ℤ)
    (db : List GenModelRow) : List GenModelRow :=
  execUpdateIterationsSql generator_id modelno n_steps db

/-- A dynamically typed SQLite cell. -/
inductive SqlVal where
  | int (n : ℤ)
  | text (s : String)
deriving DecidableEq, Repr

/-- One row of bayesdb_crosscat_theta. -/
structure CCThetaRow where
  generator_id : ℤ
  modelno : ℤ
  theta_json : SqlVal
deriving DecidableEq, Repr

/-- UPDATE bayesdb_crosscat_theta SET theta_json = ?1 WHERE generator_id =
?2 AND modelno = ?3; SQLite compares cells of different dynamic types as
unequal. -/
def execUpdateThetaSql (p1 p2 p3 : SqlVal) (db : List CCThetaRow) :
    List CCThetaRow :=
  db.map (fun r =>
    if SqlVal.int r.generator_id = p2 ∧ SqlVal.int r.modelno = p3 then
      { r with theta_json := p1 }
    else r)

/-- The analyze checkpoint executes update_theta_sql with
parameters = (generator_id, modelno, json.dumps(theta)), in that order. -/
def analyze_update_theta (generator_id modelno : ℤ) (theta_json : String)
    (db : List CCThetaRow) : List CCThetaRow :=
  execUpdateThetaSql (.int generator_id) (.int modelno) (.text theta_json) db

/-- The state of analyze's batch loop: the remaining iteration budget and
the number of completed batches (also the index of the next wall-clock
reading). -/
structure AnalyzeLoopState where
  iters : Option ℤ
  batch : ℕ
deriving DecidableEq, Repr

/-- The while condition: (iterations is None or 0 < iterations) and
(max_seconds is None or time.time() < deadline), with clock t the value of
time.time() at the t-th check. -/
def analyze_continue (clock : ℕ → ℚ) (deadline : Option ℚ)
    (s : AnalyzeLoopState) : Bool :=
  (s.iters.elim true (fun k => decide (0 < k))) &&
  (deadline.elim true (fun d => decide (clock s.batch < d)))

/-- n_steps = iterations if iterations is not None and max_seconds is None,
else 1. -/
def analyze_n_steps (deadline : Option ℚ) (iters : Option ℤ) : ℤ :=
  match iters, deadline with
  | some k, Option.none => k
  | _, _ => 1

/-- The batch loop of analyze, run with explicit fuel: some trace when the
loop exits within fuel batches (the trace lists each batch's n_steps), none
when it is still running.  Each batch decrements the budget by n_steps when
a budget was given. -/
def analyze_run (clock : ℕ → ℚ) (deadline : Option ℚ) :
    ℕ → AnalyzeLoopState → Option (List ℤ)
  | 0, s => if analyze_continue clock deadline s then Option.none else some []
  | fuel + 1, s =>
      if analyze_continue clock deadline s then
        let n := analyze_n_steps deadline s.iters
        (analyze_run clock deadline fuel
            ⟨s.iters.map (fun k => k - n), s.batch + 1⟩).map (fun t => n :: t)
      else some []

/-- Python string subscript with a string key: a str object only supports
integer indices and slices, so theta_json_string['X_L'] raises TypeError. -/
def pyStrSubscript (_s : String) (_key : String) : Except Err PyVal :=
  .error .typeError

/-- The model-update step of insertmany, lines 524-533: models holds the
(modelno, theta_json) rows of the models query, thetas = [theta for
_modelno, theta in models] keeps the raw JSON strings (no json.loads), and
X_L_list = [theta['X_L'] for theta in thetas] subscripts each string. -/
def insertmany_update_models (models : List (ℤ × String)) :
    Except Err (List PyVal) :=
  (models.map Prod.snd).mapM (fun theta => pyStrSubscript theta "X_L")

/-- The raise in insertmany's row-length check:
ValueError('Wrong row length: expected %d, got %d' (len(sql_column_names),
len(row))) is missing the % operator, so the argument expression calls the
string object and raises TypeError; the ValueError is never constructed. -/
def wrong_row_length_raise (_expected _got : ℕ) : Err :=
  .typeError

/-- The table-insert loop of insertmany: each row is appended unless its
length differs from the table's column count, in which case the raise
fires. -/
def insertmany_insert_rows (table : List (List PyVal)) (ncols : ℕ) :
    List (List PyVal) → Except Err (List (List PyVal))
  | [] => .ok table
  | row :: rest =>
      if row.length ≠ ncols then .error (wrong_row_length_raise ncols row.length)
      else insertmany_insert_rows (table ++ [row]) ncols rest

/-- insertmany's table mutation under with bdb.savepoint(): an error rolls
the table back to its pre-call contents and surfaces the exception. -/
def insertmany_table_run (table : List (List PyVal)) (ncols : ℕ)
    (rows : List (List PyVal)) : List (List PyVal) × Option Err :=
  match insertmany_insert_rows table ncols rows with
  | .ok t => (t, Option.none)
  | .error e => (table, some e)

/-- A generator whose columns are all numerical (used for concrete
evaluations of the codec). -/
def genNum : GenCtx :=
  ⟨fun _ => "numerical", [⟨0, 0, "normal_inverse_gamma"⟩], [⟨"normal_inverse_gamma", []⟩]⟩

/-- A generator with one categorical column, colno 1, cc_colno 0, whose
code map was built from the values a and b. -/
def genCat : GenCtx :=
  ⟨fun _ => "categorical", [⟨1, 0, "symmetric_dirichlet_discrete"⟩],
   [⟨"symmetric_dirichlet_discrete", [.str "a", .str "b"]⟩]⟩

/-- One trained model over three rows for genCat: one structural block, its
row-cluster assignment touching two clusters. -/
def modelsCat : List Theta :=
  [⟨[0], [[0, 1, 0]]⟩]

/-- A concrete stand-in for the engine's log-probability capability. -/
def engLogp : ℕ → ℕ → PFloat → ℚ :=
  fun r c _ => (r : ℚ) + (c : ℚ)

/-- A two-modelled-column generator for dependence-probability
evaluations. -/
def genDep : GenCtx :=
  ⟨fun _ => "categorical",
   [⟨0, 0, "symmetric_dirichlet_discrete"⟩, ⟨1, 1, "symmetric_dirichlet_discrete"⟩],
   []⟩

/-- Two models for genDep: in the first both columns share block 0 and the
block spans two row clusters; in the second the columns sit in different
blocks. -/
def modelsDep : List Theta :=
  [⟨[0, 0], [[0, 1]]⟩, ⟨[0, 1], [[0, 0], [0, 0]]⟩]

/-- The column list of the C7 counterexample: a categorical, an ignore and
a numerical column. -/
def c7ColumnList : List SchemaColumn :=
  [⟨0, "a", "categorical"⟩, ⟨1, "b", "ignore"⟩, ⟨2, "c", "numerical"⟩]

/-! ## Theorems -/

/-- C1: the claim says every targeted model's iteration counter is
incremented by n_steps and its theta persisted per batch.  The source binds
the SQL parameters in the wrong order -- (generator_id, modelno, n_steps)
against SET iterations = iterations + ? WHERE generator_id = ? AND
modelno = ?, and (generator_id, modelno, json.dumps(theta)) against SET
theta_json = ? WHERE generator_id = ? AND modelno = ? -- so at generator 1,
model 0, n_steps 5 the counter row and the theta row are both left
untouched, while the same statements with the parameters in the intended
order would perform the claimed updates. -/
theorem c1_analyze_persistence_bug :
    analyze_update_iterations 1 0 5 [⟨1, 0, 0⟩] = [⟨1, 0, 0⟩] ∧
    analyze_update_iterations 1 0 5 [⟨1, 0, 0⟩] ≠ [⟨1, 0, 5⟩] ∧
    execUpdateIterationsSql 5 1 0 [⟨1, 0, 0⟩] = [⟨1, 0, 5⟩] ∧
    analyze_update_theta 1 0 "THETA-NEW" [⟨1, 0, .text "THETA-OLD"⟩] =
      [⟨1, 0, .text "THETA-OLD"⟩] ∧
    execUpdateThetaSql (.text "THETA-NEW") (.int 1) (.int 0)
      [⟨1, 0, .text "THETA-OLD"⟩] = [⟨1, 0, .text "THETA-NEW"⟩] := by
  decide

/-- C2: the claim says insertmany verifies the engine's data matrix and
persists updated theta for every stored model.  The source forgets
json.loads on the theta rows, so with at least one stored model the list
comprehension [theta['X_L'] for theta in thetas] subscripts a string and
raises TypeError before the engine is ever called. -/
theorem c2_insertmany_theta_strings (models : List (ℤ × String))
    (h : models ≠ []) :
    insertmany_update_models models = .error .typeError := by
  cases models with
  | nil => exact absurd rfl h
  | cons m rest => rfl

/-- Witness for C2 at a one-model state. -/
theorem c2_insertmany_theta_strings_witness :
    insertmany_update_models [(0, "a theta json blob")] = .error .typeError :=
  c2_insertmany_theta_strings [(0, "a theta json blob")] (by decide)

/-- Any wrong-length row aborts the insert loop with the TypeError produced
by the malformed raise. -/
theorem insertmany_insert_rows_error (ncols : ℕ) :
    ∀ (rows table : List (List PyVal)), (∃ row ∈ rows, row.length ≠ ncols) →
      insertmany_insert_rows table ncols rows = .error .typeError := by
  intro rows
  induction rows with
  | nil =>
      intro table h
      obtain ⟨r, hr, _⟩ := h
      exact absurd hr (List.not_mem_nil r)
  | cons r rest ih =>
      intro table h
      by_cases hr : r.length = ncols
      · obtain ⟨row, hmem, hlen⟩ := h
        rcases List.mem_cons.mp hmem with h1 | h1
        · exact absurd (h1 ▸ hr) hlen
        · have hrec := ih (table ++ [r]) ⟨row, h1, hlen⟩
          simpa [insertmany_insert_rows, hr] using hrec
      · simp [insertmany_insert_rows, hr, wrong_row_length_raise]

/-- C6: the claim says a wrong-length row raises WrongRowLength and leaves
the table unchanged.  The raise is malformed (the % operator is missing, so
the message string is called), hence the exception that surfaces is a
TypeError, never a ValueError; the savepoint still rolls the table back to
its pre-call contents. -/
theorem c6_wrong_row_length (table rows : List (List PyVal)) (ncols : ℕ)
    (h : ∃ row ∈ rows, row.length ≠ ncols) :
    insertmany_table_run table ncols rows = (table, some .typeError) ∧
    ∀ msg, (insertmany_table_run table ncols rows).2 ≠ some (.valueError msg) := by
  have herr := insertmany_insert_rows_error ncols rows table h
  constructor
  · unfold insertmany_table_run
    rw [herr]
  · intro msg
    unfold insertmany_table_run
    rw [herr]
    simp

/-- Witness for C6: a three-column table, one two-entry row. -/
theorem c6_wrong_row_length_witness :
    insertmany_table_run [[.int 1, .int 2, .int 3]] 3 [[.int 4, .int 5]] =
      ([[.int 1, .int 2, .int 3]], some .typeError) ∧
    ∀ msg, (insertmany_table_run [[.int 1, .int 2, .int 3]] 3
      [[.int 4, .int 5]]).2 ≠ some (.valueError msg) :=
  c6_wrong_row_length [[.int 1, .int 2, .int 3]] [[.int 4, .int 5]] 3
    ⟨[.int 4, .int 5], by decide⟩

/-- C10: column_mutual_information computes n_samples =
int(math.ceil(float(numsamples) / len(X_L_list))) with no guard, so a
generator with zero stored models always raises ZeroDivisionError, for
every numsamples argument and engine, instead of returning NaN or a typed
not-found error. -/
theorem c10_mutual_information_zero_models (engineMI : ℤ → List ℚ)
    (numsamples : Option ℤ) :
    column_mutual_information engineMI [] numsamples =
      .error .zeroDivisionError := by
  simp only [column_mutual_information, List.length_nil, Nat.cast_zero, pyDiv,
    if_pos rfl]
  rfl

/-- Destructing a successful Except bind. -/
theorem except_bind_ok {α β : Type} {x : Except Err α} {f : α → Except Err β}
    {b : β} (h : (x >>= f) = .ok b) : ∃ a, x = .ok a ∧ f a = .ok b := by
  cases x with
  | error e => exact absurd h (by simp [Bind.bind, Except.bind])
  | ok a => exact ⟨a, rfl, h⟩

/-- A successful mapM over Except succeeds pointwise. -/
theorem mapM_ok_forall2 {α β : Type} (f : α → Except Err β) :
    ∀ (l : List α) (bs : List β), l.mapM f = .ok bs →
      List.Forall₂ (fun a b => f a = .ok b) l bs := by
  intro l
  induction l with
  | nil =>
      intro bs h
      simp only [List.mapM_nil] at h
      cases h
      exact List.Forall₂.nil
  | cons a l ih =>
      intro bs h
      rw [List.mapM_cons] at h
      obtain ⟨b, hb, h2⟩ := except_bind_ok h
      obtain ⟨bs', hbs', h3⟩ := except_bind_ok h2
      have : b :: bs' = bs := by
        simpa [Pure.pure, Except.pure] using h3
      exact this ▸ List.Forall₂.cons hb (ih bs' hbs')

/-- A Forall₂ relation provides a related right element for each left
member. -/
theorem forall2_mem_left {α β : Type} {R : α → β → Prop} :
    ∀ {l : List α} {ms : List β}, List.Forall₂ R l ms →
      ∀ a ∈ l, ∃ b ∈ ms, R a b := by
  intro l ms h
  induction h with
  | nil => intro a ha; exact absurd ha (List.not_mem_nil a)
  | @cons a' b' l' ms' hr _ ih =>
      intro x hx
      rcases List.mem_cons.mp hx with h1 | h1
      · exact ⟨b', List.mem_cons_self b' ms', h1 ▸ hr⟩
      · obtain ⟨b, hb, hrb⟩ := ih x h1
        exact ⟨b, List.mem_cons_of_mem b' hb, hrb⟩

/-- A Forall₂ relation provides a related left element for each right
member. -/
theorem forall2_mem_right {α β : Type} {R : α → β → Prop} :
    ∀ {l : List α} {ms : List β}, List.Forall₂ R l ms →
      ∀ b ∈ ms, ∃ a ∈ l, R a b := by
  intro l ms h
  induction h with
  | nil => intro b hb; exact absurd hb (List.not_mem_nil b)
  | @cons a' b' l' ms' hr _ ih =>
      intro x hx
      rcases List.mem_cons.mp hx with h1 | h1
      · exact ⟨a', List.mem_cons_self a' l', h1 ▸ hr⟩
      · obtain ⟨a, ha, hra⟩ := ih x h1
        exact ⟨a, List.mem_cons_of_mem a' ha, hra⟩

/-- Membership in enumFrom projects to membership in the underlying list. -/
theorem mem_of_mem_enumFrom {α : Type} :
    ∀ (l : List α) (n : ℕ) (p : ℕ × α), p ∈ l.enumFrom n → p.2 ∈ l := by
  intro l
  induction l with
  | nil => intro n p hp; exact absurd hp (List.not_mem_nil p)
  | cons a l ih =>
      intro n p hp
      rcases List.mem_cons.mp hp with h1 | h1
      · rw [h1]; exact List.mem_cons_self a l
      · exact List.mem_cons_of_mem a (ih (n + 1) p h1)

/-- C9: every stattype named key dispatches to create_metadata_key, whose
body reads the unbound name generator_id (its parameter is named table) and
so raises NameError; hence create_generator with any column list containing
a key column never succeeds. -/
theorem c9_key_column (distinct : ℤ → List PyVal)
    (column_list : List SchemaColumn)
    (h : ∃ c ∈ column_list, casefold c.stattype = "key") :
    create_metadata_key distinct 0 = .error .nameError ∧
    ∀ rows, create_generator_columns distinct column_list ≠ .ok rows := by
  refine ⟨rfl, ?_⟩
  intro rows hok
  unfold create_generator_columns at hok
  obtain ⟨ms, hms, -⟩ := except_bind_ok hok
  have hfa := mapM_ok_forall2 _ column_list ms hms
  obtain ⟨c, hc, hkey⟩ := h
  obtain ⟨m, -, hm⟩ := forall2_mem_left hfa c hc
  rw [hkey] at hm
  exact absurd hm (by simp [metadata_creators, create_metadata_key])

/-- Witness for C9 at a single key column. -/
theorem c9_key_column_witness :
    create_metadata_key (fun _ => []) 0 = .error .nameError ∧
    create_generator_columns (fun _ => []) [⟨0, "k", "key"⟩] ≠
      .ok [(0, 0, "key")] := by
  have h := c9_key_column (fun _ => []) [⟨0, "k", "key"⟩]
    ⟨⟨0, "k", "key"⟩, by decide, by decide⟩
  exact ⟨h.1, h.2 [(0, 0, "key")]⟩

/-- A successful metadata creator for a stattype other than ignore and key
writes one of the three engine distribution names as the modeltype. -/
theorem metadata_creators_modeltype (distinct : ℤ → List PyVal) (st : String)
    (colno : ℤ) (m : ColMeta) (h : metadata_creators distinct st colno = .ok m)
    (hig : st ≠ "ignore") (hkey : st ≠ "key") :
    m.modeltype = "symmetric_dirichlet_discrete" ∨ m.modeltype = "vonmises" ∨
      m.modeltype = "normal_inverse_gamma" := by
  unfold metadata_creators at h
  split at h
  · left
    cases (Except.ok.inj h).symm
    rfl
  · right; left
    cases (Except.ok.inj h).symm
    rfl
  · exact absurd rfl hig
  · exact absurd rfl hkey
  · right; right
    cases (Except.ok.inj h).symm
    rfl
  · exact absurd h (by simp)

/-- C7 counterexample: on a column list holding a categorical, an ignore and
a numerical column, create_generator gives the ignore column cc_colno 1 and
the numerical column cc_colno 2, so the modelled columns receive the cc
indices 0 and 2, not a dense 0..1 enumeration, and the ignore column does
consume a cc_colno. -/
theorem c7_cc_colno_counterexample :
    create_generator_columns (fun _ => []) c7ColumnList =
      .ok [(0, 0, "symmetric_dirichlet_discrete"), (1, 1, "ignore"),
           (2, 2, "normal_inverse_gamma")] ∧
    modelledCcList [(0, 0, "symmetric_dirichlet_discrete"), (1, 1, "ignore"),
           (2, 2, "normal_inverse_gamma")] ≠ List.range 2 := by
  decide

/-- C7 (amended): create_generator assigns cc_colno densely 0..n-1 over ALL
columns of the column list, in list order (ignore columns included; a key
column aborts creation).  Consequently the cc_colno values are unique, the
stored (colno, cc_colno) pairing follows the list, and when every listed
column is modelled (no ignore, no key) the assignment is the claimed dense
0..k-1 bijection over the modelled columns in column order. -/
theorem c7_cc_colno_amended (distinct : ℤ → List PyVal)
    (column_list : List SchemaColumn) (rows : List (ℤ × ℕ × String))
    (h : create_generator_columns distinct column_list = .ok rows) :
    rows.map (fun r => r.2.1) = List.range column_list.length ∧
    rows.map (fun r => r.1) = column_list.map SchemaColumn.colno ∧
    (rows.map (fun r => r.2.1)).Nodup ∧
    ((∀ c ∈ column_list,
        casefold c.stattype ≠ "ignore" ∧ casefold c.stattype ≠ "key") →
      modelledCcList rows = List.range column_list.length) := by
  unfold create_generator_columns at h
  obtain ⟨ms, hms, hrows⟩ := except_bind_ok h
  have hfa := mapM_ok_forall2 _ column_list ms hms
  have hlen : column_list.length = ms.length := List.Forall₂.length_eq hfa
  have hziplen : (column_list.zip ms).length = column_list.length := by
    rw [List.length_zip, ← hlen, min_self]
  have hrows' : rows = (column_list.zip ms).enum.map
      (fun p => (p.2.1.colno, p.1, p.2.2.modeltype)) :=
    (Except.ok.inj hrows).symm
  have h1 : rows.map (fun r => r.2.1) = List.range column_list.length := by
    rw [hrows', List.map_map]
    have hcomp : ((fun r : ℤ × ℕ × String => r.2.1) ∘
        (fun p : ℕ × SchemaColumn × ColMeta =>
          (p.2.1.colno, p.1, p.2.2.modeltype))) = Prod.fst := rfl
    rw [hcomp, List.enum_map_fst, hziplen]
  have h2 : rows.map (fun r => r.1) = column_list.map SchemaColumn.colno := by
    rw [hrows', List.map_map]
    have hcomp : ((fun r : ℤ × ℕ × String => r.1) ∘
        (fun p : ℕ × SchemaColumn × ColMeta =>
          (p.2.1.colno, p.1, p.2.2.modeltype))) =
        ((SchemaColumn.colno ∘ Prod.fst) ∘ Prod.snd) := rfl
    rw [hcomp]
    rw [← List.map_map, ← List.map_map, List.enum_map_snd,
      List.map_fst_zip column_list ms (le_of_eq hlen)]
  refine ⟨h1, h2, by rw [h1]; exact List.nodup_range _, ?_⟩
  intro hmods
  have hall : ∀ r ∈ rows,
      (decide (r.2.2 ≠ "ignore") && decide (r.2.2 ≠ "key")) = true := by
    intro r hr
    rw [hrows'] at hr
    obtain ⟨p, hp, hgp⟩ := List.mem_map.mp hr
    have hmemzip : p.2 ∈ column_list.zip ms := mem_of_mem_enumFrom _ 0 p hp
    have hmem_m : p.2.2 ∈ ms := (List.of_mem_zip hmemzip).2
    obtain ⟨c, hc, hcm⟩ := forall2_mem_right hfa p.2.2 hmem_m
    have hmt := metadata_creators_modeltype distinct _ _ _ hcm
      (hmods c hc).1 (hmods c hc).2
    have hr22 : r.2.2 = p.2.2.modeltype := by rw [← hgp]
    rw [hr22]
    rcases hmt with hm | hm | hm <;> rw [hm] <;> decide
  unfold modelledCcList
  rw [List.filter_eq_self.mpr hall, h1]

/-- Witness for C7 at a two-column all-modelled list. -/
theorem c7_cc_colno_amended_witness :
    ([((0 : ℤ), (0 : ℕ), "symmetric_dirichlet_discrete"),
      (5, 1, "normal_inverse_gamma")].map (fun r => r.2.1) = List.range 2) ∧
    modelledCcList [((0 : ℤ), (0 : ℕ), "symmetric_dirichlet_discrete"),
      (5, 1, "normal_inverse_gamma")] = List.range 2 := by
  have h := c7_cc_colno_amended (fun _ => [])
    [⟨0, "a", "categorical"⟩, ⟨5, "b", "numerical"⟩]
    [(0, 0, "symmetric_dirichlet_discrete"), (5, 1, "normal_inverse_gamma")]
    (by decide)
  exact ⟨h.1, h.2.2.2 (by decide)⟩

/-- With an iteration budget of k, analyze's loop exits within k.toNat
batches, whatever the clock does. -/
theorem analyze_run_isSome_of_iters (clock : ℕ → ℚ) (deadline : Option ℚ) :
    ∀ (fuel : ℕ) (s : AnalyzeLoopState) (k : ℤ), s.iters = some k →
      k.toNat ≤ fuel → (analyze_run clock deadline fuel s).isSome := by
  intro fuel
  induction fuel with
  | zero =>
      intro s k hk hle
      have hfalse : analyze_continue clock deadline s = false := by
        unfold analyze_continue
        rw [hk, Option.elim_some]
        have hdk : decide (0 < k) = false := by
          simp only [decide_eq_false_iff_not, not_lt]
          omega
        rw [hdk, Bool.false_and]
      unfold analyze_run
      rw [hfalse]
      simp
  | succ fuel ih =>
      intro s k hk hle
      unfold analyze_run
      by_cases hc : analyze_continue clock deadline s = true
      · rw [if_pos hc]
        have h0k : 0 < k := by
          unfold analyze_continue at hc
          rw [hk, Option.elim_some] at hc
          have := (Bool.and_eq_true _ _).mp hc
          exact of_decide_eq_true this.1
        have hrec : (analyze_run clock deadline fuel
            ⟨s.iters.map (fun x => x - analyze_n_steps deadline s.iters),
             s.batch + 1⟩).isSome := by
          apply ih _ (k - analyze_n_steps deadline s.iters)
          · rw [hk]; rfl
          · rw [hk]
            cases deadline with
            | none => simp only [analyze_n_steps]; omega
            | some d => simp only [analyze_n_steps]; omega
        rcases Option.isSome_iff_exists.mp hrec with ⟨t, ht⟩
        simp [ht]
      · rw [if_neg hc]
        rfl

/-- With a deadline that the clock reaches at the j-th later reading,
analyze's loop exits within j batches. -/
theorem analyze_run_isSome_of_deadline (clock : ℕ → ℚ) (d : ℚ) :
    ∀ (fuel : ℕ) (s : AnalyzeLoopState) (j : ℕ), j ≤ fuel →
      d ≤ clock (s.batch + j) → (analyze_run clock (some d) fuel s).isSome := by
  intro fuel
  induction fuel with
  | zero =>
      intro s j hj hd
      have hj0 : j = 0 := Nat.le_zero.mp hj
      rw [hj0, Nat.add_zero] at hd
      have hfalse : analyze_continue clock (some d) s = false := by
        unfold analyze_continue
        rw [Option.elim_some]
        have hdd : decide (clock s.batch < d) = false := by
          simp only [decide_eq_false_iff_not, not_lt]
          exact hd
        rw [hdd, Bool.and_false]
      unfold analyze_run
      rw [hfalse]
      simp
  | succ fuel ih =>
      intro s j hj hd
      unfold analyze_run
      by_cases hc : analyze_continue clock (some d) s = true
      · rw [if_pos hc]
        have hlt : clock s.batch < d := by
          unfold analyze_continue at hc
          rw [Option.elim_some] at hc
          have := (Bool.and_eq_true _ _).mp hc
          exact of_decide_eq_true this.2
        have hj0 : j ≠ 0 := by
          intro h0
          rw [h0, Nat.add_zero] at hd
          exact absurd hlt (not_lt.mpr hd)
        obtain ⟨j', rfl⟩ := Nat.exists_eq_succ_of_ne_zero hj0
        have hrec := ih
          ⟨s.iters.map (fun x => x - analyze_n_steps (some d) s.iters),
           s.batch + 1⟩ j' (by omega) (by
            have harith : s.batch + 1 + j' = s.batch + (j' + 1) := by omega
            rw [harith]
            exact hd)
        rcases Option.isSome_iff_exists.mp hrec with ⟨t, ht⟩
        simp [ht]
      · rw [if_neg hc]
        rfl

/-- C8: whenever at least one bound is supplied (an iteration budget, or a
deadline that the wall clock eventually reaches), analyze's batch loop
terminates; the loop's continuation test fails exactly when the remaining
budget has reached zero or the deadline has passed; and with iterations =
k > 0 and no time bound, the loop performs exactly one batch of k steps. -/
theorem c8_analyze_terminates (clock : ℕ → ℚ) (iters : Option ℤ)
    (deadline : Option ℚ)
    (h : (∃ k, iters = some k) ∨
         (∃ d, deadline = some d ∧ ∃ t, d ≤ clock t)) :
    (∃ fuel, (analyze_run clock deadline fuel ⟨iters, 0⟩).isSome) ∧
    (∀ s : AnalyzeLoopState, analyze_continue clock deadline s = false ↔
      ((∃ k, s.iters = some k ∧ k ≤ 0) ∨
       (∃ d, deadline = some d ∧ d ≤ clock s.batch))) ∧
    (∀ k : ℤ, 0 < k →
      analyze_run clock Option.none 1 ⟨some k, 0⟩ = some [k]) := by
  refine ⟨?_, ?_, ?_⟩
  · rcases h with ⟨k, hk⟩ | ⟨d, hd, t, ht⟩
    · exact ⟨k.toNat, analyze_run_isSome_of_iters clock deadline k.toNat
        ⟨iters, 0⟩ k (by rw [hk]) le_rfl⟩
    · subst hd
      exact ⟨t, analyze_run_isSome_of_deadline clock d t ⟨iters, 0⟩ t le_rfl
        (by simpa using ht)⟩
  · intro s
    unfold analyze_continue
    cases hs : s.iters with
    | none =>
        cases hdl : deadline with
        | none => simp
        | some d => simp [not_lt]
    | some k =>
        cases hdl : deadline with
        | none => simp [not_lt]
        | some d =>
            simp only [Option.elim_some, Bool.and_eq_false_iff,
              decide_eq_false_iff_not, not_lt, Option.some.injEq]
            constructor
            · rintro (h1 | h1)
              · exact Or.inl ⟨k, rfl, h1⟩
              · exact Or.inr ⟨d, rfl, h1⟩
            · rintro (⟨k2, hk2, h1⟩ | ⟨d2, hd2, h1⟩)
              · cases hk2; exact Or.inl h1
              · cases hd2; exact Or.inr h1
  · intro k hk
    have hcont : analyze_continue clock Option.none ⟨some k, 0⟩ = true := by
      unfold analyze_continue
      simp [hk]
    have hstop : analyze_continue clock Option.none ⟨some 0, 1⟩ = false := by
      unfold analyze_continue
      simp
    simp [analyze_run, analyze_n_steps, hcont, hstop]

/-- Witness for C8: budget of five iterations, no deadline, constant
clock. -/
theorem c8_analyze_terminates_witness :
    analyze_run (fun _ => 0) Option.none 1 ⟨some 5, 0⟩ = some [5] :=
  (c8_analyze_terminates (fun _ => 0) (some 5) Option.none
    (Or.inl ⟨5, rfl⟩)).2.2 5 (by decide)

/-- Bind of a successful Except computation. -/
theorem except_ok_bind {α β : Type} (a : α) (f : α → Except Err β) :
    (Except.ok a >>= f : Except Err β) = f a := rfl

/-- Bind of a failed Except computation. -/
theorem except_error_bind {α β : Type} (e : Err) (f : α → Except Err β) :
    (Except.error e >>= f : Except Err β) = Except.error e := rfl

/-- pure on Except is ok. -/
theorem except_pure {α : Type} (a : α) :
    (pure a : Except Err α) = Except.ok a := rfl

/-- On well-formed models the dependence counting loop runs to completion
and counts exactly the models satisfying the claim's per-model test. -/
theorem depModelCounts_ok (cc0 cc1 : ℕ) :
    ∀ (models : List Theta),
      (∀ m ∈ models, cc0 < m.assignments.length ∧ cc1 < m.assignments.length ∧
        ∀ a ∈ m.assignments, a < m.X_D.length) →
      depModelCounts cc0 cc1 models =
        .ok (models.countP (depMatch cc0 cc1), models.length) := by
  intro models
  induction models with
  | nil => intro h; rfl
  | cons m rest ih =>
      intro h
      obtain ⟨h0, h1, hxd⟩ := h m (List.mem_cons_self m rest)
      have hrest := ih (fun m2 hm2 => h m2 (List.mem_cons_of_mem m hm2))
      have ha0 : m.assignments.get? cc0 = some m.assignments[cc0] := by
        rw [List.get?_eq_getElem?]
        exact List.getElem?_eq_getElem h0
      have ha1 : m.assignments.get? cc1 = some m.assignments[cc1] := by
        rw [List.get?_eq_getElem?]
        exact List.getElem?_eq_getElem h1
      have hxd0 : m.assignments[cc0] < m.X_D.length :=
        hxd _ (List.getElem_mem h0)
      have hXD : m.X_D.get? m.assignments[cc0] =
          some (m.X_D[m.assignments[cc0]]) := by
        rw [List.get?_eq_getElem?]
        exact List.getElem?_eq_getElem hxd0
      have hstep0 : pyListGet m.assignments cc0 = .ok m.assignments[cc0] := by
        unfold pyListGet
        rw [ha0]
      have hstep1 : pyListGet m.assignments cc1 = .ok m.assignments[cc1] := by
        unfold pyListGet
        rw [ha1]
      have hstepXD : pyListGet m.X_D m.assignments[cc0] =
          .ok (m.X_D[m.assignments[cc0]]) := by
        unfold pyListGet
        rw [hXD]
      have hgd0 : m.assignments.getD cc0 0 = m.assignments[cc0] := by
        rw [List.getD_eq_getElem?_getD, List.getElem?_eq_getElem h0]
        rfl
      have hgd1 : m.assignments.getD cc1 0 = m.assignments[cc1] := by
        rw [List.getD_eq_getElem?_getD, List.getElem?_eq_getElem h1]
        rfl
      have hgdXD : m.X_D.getD m.assignments[cc0] [] = m.X_D[m.assignments[cc0]] := by
        rw [List.getD_eq_getElem?_getD, List.getElem?_eq_getElem hxd0]
        rfl
      by_cases heq : m.assignments[cc0] = m.assignments[cc1]
      · have hdm : depMatch cc0 cc1 m =
            decide (1 < (m.X_D[m.assignments[cc0]]).dedup.length) := by
          unfold depMatch
          rw [hgd0, hgd1, hgdXD]
          simp [heq]
        simp only [depModelCounts, hstep0, hstep1, except_ok_bind]
        rw [if_neg (not_not_intro heq)]
        simp only [hstepXD, except_ok_bind, except_pure, hrest,
          List.countP_cons, hdm]
        by_cases hlen : (m.X_D[m.assignments[cc0]]).dedup.length ≤ 1
        · have hd : decide (1 < (m.X_D[m.assignments[cc0]]).dedup.length) = false := by
            simp only [decide_eq_false_iff_not, not_lt]
            omega
          rw [if_pos hlen, hd]
          simp
        · have hd : decide (1 < (m.X_D[m.assignments[cc0]]).dedup.length) = true := by
            simp only [decide_eq_true_eq]
            omega
          rw [if_neg hlen, hd]
          simp
      · have hdm : depMatch cc0 cc1 m = false := by
          unfold depMatch
          rw [hgd0, hgd1]
          simp [heq]
        simp only [depModelCounts, hstep0, hstep1, except_ok_bind]
        rw [if_pos heq]
        simp only [except_pure, except_ok_bind, hrest, List.countP_cons, hdm]
        simp

/-- C3: column_dependence_probability returns 1 when the two column numbers
coincide (before any lookup); with both columns modelled and zero stored
models it returns NaN; otherwise it returns count/N where N is the total
number of stored models and count is the number of models in which both
columns' compacted indices lie in the same structural block whose
row-cluster assignment holds more than one distinct cluster. -/
theorem c3_column_dependence_probability (g : GenCtx) (models : List Theta)
    (colno0 colno1 : ℤ) (cc0 cc1 : ℕ)
    (h0 : crosscat_cc_colno g.cc_columns colno0 = .ok cc0)
    (h1 : crosscat_cc_colno g.cc_columns colno1 = .ok cc1)
    (hwf : ∀ m ∈ models, cc0 < m.assignments.length ∧
      cc1 < m.assignments.length ∧ ∀ a ∈ m.assignments, a < m.X_D.length) :
    (∀ c : ℤ, column_dependence_probability g models c c = .ok (.val 1)) ∧
    (models = [] → colno0 ≠ colno1 →
      column_dependence_probability g models colno0 colno1 = .ok .nan) ∧
    (colno0 ≠ colno1 → models ≠ [] →
      column_dependence_probability g models colno0 colno1 =
        .ok (.val ((models.countP (depMatch cc0 cc1) : ℚ) /
          (models.length : ℚ)))) := by
  refine ⟨fun c => by simp [column_dependence_probability], ?_, ?_⟩
  · intro hnil hne
    subst hnil
    unfold column_dependence_probability
    rw [if_neg hne]
    rw [h0, except_ok_bind, h1, except_ok_bind]
    rfl
  · intro hne hnonnil
    have hcount := depModelCounts_ok cc0 cc1 models hwf
    unfold column_dependence_probability
    rw [if_neg hne]
    rw [h0, except_ok_bind, h1, except_ok_bind, hcount, except_ok_bind]
    have hlen : models.length ≠ 0 := by
      intro hz
      exact hnonnil (List.length_eq_zero.mp hz)
    rw [if_neg hlen]

/-- Witness for C3 on two models, one dependent, one not: probability is
one half of the total model count. -/
theorem c3_column_dependence_probability_witness :
    column_dependence_probability genDep modelsDep 0 0 = .ok (.val 1) ∧
    column_dependence_probability genDep modelsDep 0 1 =
      .ok (.val ((1 : ℚ) / 2)) := by
  have h := c3_column_dependence_probability genDep modelsDep 0 1 0 1
    (by decide) (by decide) (by decide)
  refine ⟨h.1 0, ?_⟩
  have hc : List.countP (depMatch 0 1) modelsDep = 1 := by decide
  have hl : modelsDep.length = 2 := by decide
  rw [h.2.2 (by decide) (by decide), hc, hl]
  norm_num

/-- A key absent from the key list is not found. -/
theorem codeOfValueAux_eq_none (k : String) :
    ∀ keys : List String, k ∉ keys → codeOfValueAux keys k = Option.none := by
  intro keys
  induction keys with
  | nil => intro h; rfl
  | cons k0 rest ih =>
      intro h
      have h0 : k0 ≠ k := fun he => h (he ▸ List.mem_cons_self k0 rest)
      have hrest : k ∉ rest := fun hm => h (List.mem_cons_of_mem k0 hm)
      unfold codeOfValueAux
      rw [ih hrest, if_neg h0]

/-- On a duplicate-free key list the lookup returns the key's index. -/
theorem codeOfValueAux_get (k : String) :
    ∀ (keys : List String) (i : ℕ), keys.Nodup → keys.get? i = some k →
      codeOfValueAux keys k = some i := by
  intro keys
  induction keys with
  | nil => intro i _ h; simp at h
  | cons k0 rest ih =>
      intro i hnd hi
      obtain ⟨hk0, hndr⟩ := List.nodup_cons.mp hnd
      cases i with
      | zero =>
          have hk : k0 = k := by simpa using hi
          subst hk
          unfold codeOfValueAux
          rw [codeOfValueAux_eq_none k0 rest hk0, if_pos rfl]
      | succ i2 =>
          have hi2 : rest.get? i2 = some k := by simpa using hi
          unfold codeOfValueAux
          rw [ih i2 hndr hi2]

/-- Python int() of an exact natural float is the natural itself. -/
theorem ratTrunc_natCast (i : ℕ) : ratTrunc (i : ℚ) = i := by
  unfold ratTrunc
  rw [Rat.num_natCast, Rat.den_natCast]
  simp

/-- The categorical branch of crosscat_value_to_code on a non-null value. -/
theorem crosscat_value_to_code_cat (g : GenCtx) (colno : ℤ) (v : PyVal)
    (hst : g.stattypeOf colno = "categorical") (hv : v ≠ .none) :
    crosscat_value_to_code g colno v = (do
      let cc ← crosscat_cc_colno g.cc_columns colno
      let m ← pyListGet g.metas cc
      match codeOfValueAux (m.codes.map pyUnicode) (pyUnicode v) with
      | some c => Except.ok (.val c)
      | Option.none => Except.error Err.keyError) := by
  unfold crosscat_value_to_code
  rw [hst, if_pos rfl]
  cases v with
  | none => exact absurd rfl hv
  | str s => rfl
  | num x => rfl
  | int n => rfl

/-- The categorical branch of crosscat_code_to_value on a numeric code. -/
theorem crosscat_code_to_value_cat (g : GenCtx) (colno : ℤ) (q : ℚ)
    (hst : g.stattypeOf colno = "categorical") :
    crosscat_code_to_value g colno (.val q) = (do
      let cc ← crosscat_cc_colno g.cc_columns colno
      let m ← pyListGet g.metas cc
      match valueOfCode m (ratTrunc q) with
      | some v => Except.ok v
      | Option.none => Except.error Err.keyError) := by
  unfold crosscat_code_to_value
  rw [hst, if_pos rfl]

/-- C4 counterexample: on a numerical column the string "2" is non-null and
parseable as a float; it codes to the float 2.0, which decodes to the float
2.0 and not to the original string, so the claimed round trip fails. -/
theorem c4_roundtrip_counterexample :
    crosscat_value_to_code genNum 0 (.str "2") = .ok (.val 2) ∧
    crosscat_code_to_value genNum 0 (.val 2) = .ok (.num (.val 2)) ∧
    PyVal.num (.val 2) ≠ .str "2" := by
  refine ⟨?_, by decide, by decide⟩
  decide

/-- C4 (amended): the round trip code_to_value(value_to_code(v)) == v holds
for every non-null categorical v stored in the column's code map (whose
rendered keys are distinct), and for every numerical/cyclic v that is an
actual non-NaN float; a string merely parseable as a float decodes to the
parsed float rather than the original string (see the counterexample), and
NaN itself encodes to the missing sentinel.  Null encodes to the NaN
sentinel and decodes back to null for every supported stattype. -/
theorem c4_roundtrip_amended (g : GenCtx) (colno : ℤ) (cc : ℕ) (m : ColMeta)
    (hcc : crosscat_cc_colno g.cc_columns colno = .ok cc)
    (hm : g.metas.get? cc = some m) :
    (g.stattypeOf colno = "categorical" →
      (m.codes.map pyUnicode).Nodup →
      ∀ (i : ℕ) (v : PyVal), m.codes.get? i = some v → v ≠ .none →
        crosscat_value_to_code g colno v = .ok (.val i) ∧
        crosscat_code_to_value g colno (.val i) = .ok v) ∧
    ((g.stattypeOf colno = "cyclic" ∨ g.stattypeOf colno = "numerical") →
      ∀ q : ℚ, crosscat_value_to_code g colno (.num (.val q)) = .ok (.val q) ∧
        crosscat_code_to_value g colno (.val q) = .ok (.num (.val q))) ∧
    ((g.stattypeOf colno = "categorical" ∨ g.stattypeOf colno = "cyclic" ∨
        g.stattypeOf colno = "numerical") →
      crosscat_value_to_code g colno .none = .ok .nan ∧
      crosscat_code_to_value g colno .nan = .ok .none) := by
  have hpm : pyListGet g.metas cc = .ok m := by
    unfold pyListGet
    rw [hm]
  refine ⟨?_, ?_, ?_⟩
  · intro hst hnd i v hi hv
    have hkeys : (m.codes.map pyUnicode).get? i = some (pyUnicode v) := by
      rw [List.get?_eq_getElem?, List.getElem?_map, ← List.get?_eq_getElem?,
        hi]
      rfl
    have hfind := codeOfValueAux_get (pyUnicode v) (m.codes.map pyUnicode) i
      hnd hkeys
    constructor
    · rw [crosscat_value_to_code_cat g colno v hst hv, hcc, except_ok_bind,
        hpm, except_ok_bind, hfind]
    · rw [crosscat_code_to_value_cat g colno (i : ℚ) hst, hcc, except_ok_bind,
        hpm, except_ok_bind]
      unfold valueOfCode
      rw [ratTrunc_natCast, if_pos (Int.natCast_nonneg i), Int.toNat_natCast,
        hi]
  · intro hst q
    rcases hst with h | h <;>
      exact ⟨by simp [crosscat_value_to_code, h, pyFloatForce],
             by simp [crosscat_code_to_value, h]⟩
  · intro hst
    rcases hst with h | h | h <;>
      exact ⟨by simp [crosscat_value_to_code, h, pyFloatForce],
             by simp [crosscat_code_to_value, h]⟩

/-- Witness for C4 on a numerical column: an exact float and null both
round trip as amended. -/
theorem c4_roundtrip_amended_witness :
    (crosscat_value_to_code genNum 0 (.num (.val 3)) = .ok (.val 3) ∧
     crosscat_code_to_value genNum 0 (.val 3) = .ok (.num (.val 3))) ∧
    (crosscat_value_to_code genNum 0 .none = .ok .nan ∧
     crosscat_code_to_value genNum 0 .nan = .ok .none) := by
  have h := c4_roundtrip_amended genNum 0 0 ⟨"normal_inverse_gamma", []⟩
    (by decide) (by decide)
  exact ⟨h.2.1 (Or.inr rfl) 3, h.2.2 (Or.inr (Or.inr rfl))⟩

/-- C5: codifying a non-null categorical value absent from the column's
code map raises KeyError (the spec taxonomy's UnknownCategoricalValue), and
column_value_probability converts exactly that KeyError into probability 0
instead of failing; for a representable value it queries the engine at the
synthetic unobserved row id len(X_D_list[0][0]) -- one past the end of the
0-based data -- and returns the exponentiated engine log-probability. -/
theorem c5_column_value_probability (g : GenCtx) (models : List Theta)
    (expf : ℚ → ℚ) (engine : ℕ → ℕ → PFloat → ℚ) (colno : ℤ) (value : PyVal)
    (cc : ℕ) (m : ColMeta)
    (hcc : crosscat_cc_colno g.cc_columns colno = .ok cc)
    (hm : g.metas.get? cc = some m) :
    (g.stattypeOf colno = "categorical" → value ≠ .none →
      codeOfValueAux (m.codes.map pyUnicode) (pyUnicode value) = Option.none →
      crosscat_value_to_code g colno value = .error .keyError ∧
      column_value_probability g models expf engine colno value = .ok 0) ∧
    (∀ (code : PFloat) (m0 : Theta) (rows0 : List ℕ),
      crosscat_value_to_code g colno value = .ok code →
      models.get? 0 = some m0 → m0.X_D.get? 0 = some rows0 →
      column_value_probability g models expf engine colno value =
        .ok (expf (engine rows0.length cc code))) := by
  have hpm : pyListGet g.metas cc = .ok m := by
    unfold pyListGet
    rw [hm]
  constructor
  · intro hst hv hnone
    have hcode : crosscat_value_to_code g colno value = .error .keyError := by
      rw [crosscat_value_to_code_cat g colno value hst hv, hcc, except_ok_bind,
        hpm, except_ok_bind, hnone]
    refine ⟨hcode, ?_⟩
    unfold column_value_probability
    rw [hcode]
  · intro code m0 rows0 hcode hm0 hrows0
    have hxd0 : pyListGet (models.map Theta.X_D) 0 = .ok m0.X_D := by
      unfold pyListGet
      rw [List.get?_eq_getElem?, List.getElem?_map, ← List.get?_eq_getElem?,
        hm0]
      rfl
    have hv0 : pyListGet m0.X_D 0 = .ok rows0 := by
      unfold pyListGet
      rw [hrows0]
    unfold column_value_probability
    rw [hcode]
    show (do
      let xd0 ← pyListGet (models.map Theta.X_D) 0
      let v0 ← pyListGet xd0 0
      let fake_row_id := v0.length
      let cc2 ← crosscat_cc_colno g.cc_columns colno
      Except.ok (expf (engine fake_row_id cc2 code))) =
      Except.ok (expf (engine rows0.length cc code))
    simp only [hxd0, hv0, hcc, except_ok_bind]

/-- Witness for C5: the unseen category zebra has probability 0 while the
known category a is passed to the engine at row id 3, one past the three
data rows. -/
theorem c5_column_value_probability_witness :
    column_value_probability genCat modelsCat id engLogp 1 (.str "zebra") =
      .ok 0 ∧
    crosscat_value_to_code genCat 1 (.str "zebra") = .error .keyError ∧
    column_value_probability genCat modelsCat id engLogp 1 (.str "a") =
      .ok (engLogp 3 0 (.val 0)) := by
  have h1 := (c5_column_value_probability genCat modelsCat id engLogp 1
    (.str "zebra") 0 ⟨"symmetric_dirichlet_discrete", [.str "a", .str "b"]⟩
    (by decide) (by decide)).1 (by decide) (by decide) (by decide)
  have h2 := (c5_column_value_probability genCat modelsCat id engLogp 1
    (.str "a") 0 ⟨"symmetric_dirichlet_discrete", [.str "a", .str "b"]⟩
    (by decide) (by decide)).2 (.val 0) ⟨[0], [[0, 1, 0]]⟩ [0, 1, 0]
    (by decide) (by decide) (by decide)
  exact ⟨h1.2, h1.1, h2⟩
